import Mathlib

/-!
# Verification of the jabber-bot webhook/XMPP pipeline

A shallow embedding, in Lean 4, of the pieces of the `jabber-bot` Go
repository that the specification's testable properties talk about:

* the test-mode utilities of `internal/webhook/manager.go`
  (`isTestMessage`, `removeTestPrefix`, `getTestWebhookURL`,
  `simpleURLModification`, `ProcessTestMessage`);
* the delivery loop, statistics and lifecycle of
  `internal/webhook/service.go` (`sendWebhook`, `sendWebhookAttempt`,
  `updateStats`, `IsHealthy`, `Start`/`Stop`/`SendMessage`);
* the XMPP client's `Disconnect` (state effects on the inbound channel);
* the fan-in `mergeChannels` of `internal/xmpp/manager.go`, modelled as a
  nondeterministic small-step relation over goroutine interleavings.

Go strings are modelled as `List Char` (`Str`), so that every string
operation used by the code (`strings.HasPrefix`, `strings.TrimSpace`,
`strings.Contains`, `strings.TrimPrefix`, `strings.Replace` with limit 1)
is an executable structural recursion we can reason about.  Go `int64`
counters are modelled as `Nat` (they only ever increment; two's-complement
wraparound after 2^63 increments is out of scope) and `time.Time` values
as a `Nat` logical clock ordered like `Time.Before` (strict `<`).

The file is laid out as definitions first (the embedding of the code),
then lemmas and theorems (the verification of the claims).
-/

/-! ## Definitions: Go strings -/

/-- Go strings, modelled as lists of characters. -/
abbrev Str := List Char

/-- The ASCII white-space characters trimmed by Go's `strings.TrimSpace`
(`unicode.IsSpace` restricted to ASCII: space, tab, newline, vertical tab,
form feed, carriage return).  The bodies and URLs handled by the bot are
ASCII; the non-ASCII space code points of `unicode.IsSpace` are not
modelled. -/
def isSpaceChar (c : Char) : Bool :=
  c = ' ' || c = '\t' || c = '\n' || c = '\x0b' || c = '\x0c' || c = '\r'

/-- Go `strings.HasPrefix s pre`. -/
def goHasPrefix (s pre : Str) : Bool :=
  pre.isPrefixOf s

/-- Go `strings.TrimSpace s`: drop leading and trailing white space. -/
def goTrimSpace (s : Str) : Str :=
  ((s.dropWhile isSpaceChar).reverse.dropWhile isSpaceChar).reverse

/-- Go `strings.TrimPrefix s pre`. -/
def goTrimPrefix (s pre : Str) : Str :=
  if pre.isPrefixOf s then s.drop pre.length else s

/-- Go `strings.Contains s sub`: some occurrence of `sub` starts at some
position of `s`. -/
def goContains : Str → Str → Bool
  | [], sub => sub.isEmpty
  | c :: t, sub => sub.isPrefixOf (c :: t) || goContains t sub

/-- Go `strings.Replace s old new 1`: replace the first (leftmost)
occurrence of `old` by `new`; when `old` is empty Go inserts `new` before
`s`.  Argument order puts `s` last for structural recursion. -/
def goReplaceFirst (old new : Str) : Str → Str
  | [] => if old.isEmpty then new else []
  | c :: t =>
    if old.isPrefixOf (c :: t) then new ++ (c :: t).drop old.length
    else c :: goReplaceFirst old new t

/-! ## Definitions: test-mode utilities (`internal/webhook/manager.go`) -/

/-- The literal `"[test]"` token of the test-mode convention. -/
def testToken : Str := "[test]".data

/-- The default test-mode suffix `"-test"` applied by `NewTestModeUtils`
when the configured suffix is empty. -/
def defaultTestSuffix : Str := "-test".data

/-- `NewTestModeUtils`: an empty configured suffix falls back to
`"-test"`. -/
def newTestModeSuffix (suffix : Str) : Str :=
  if suffix.isEmpty then defaultTestSuffix else suffix

/-- `TestModeUtils.isTestMessage`: the trimmed body starts with
`"[test]"`. -/
def isTestMessage (body : Str) : Bool :=
  goHasPrefix (goTrimSpace body) testToken

/-- `TestModeUtils.removeTestPrefix`: trim the body; if it starts with
`"[test]"`, drop that token and trim again; otherwise return the body
unchanged. -/
def removeTestPrefix (body : Str) : Str :=
  let trimmed := goTrimSpace body
  if goHasPrefix trimmed testToken then
    goTrimSpace (goTrimPrefix trimmed testToken)
  else body

/-- A parsed URL as Go's `net/url.Parse` yields it for the bot's webhook
URLs: scheme, host (including any port), path, raw query.  `String()`
re-assembles exactly these components, so the rewrite of
`getTestWebhookURL` — which only replaces inside `parsedURL.Path` — is
modelled as a record update. -/
structure GoURL where
  scheme : Str
  host : Str
  path : Str
  rawQuery : Str
deriving DecidableEq

/-- The literal `"webhook"`. -/
def webhookToken : Str := "webhook".data

/-- The literal `"webhook-test"`. -/
def webhookTestToken : Str := "webhook".data ++ "-test".data

/-- `TestModeUtils.getTestWebhookURL` on a successfully parsed URL: if the
path contains `"webhook"` but not `"webhook-test"`, replace the first
`"webhook"` in the path by `"webhook" + suffix`; otherwise the URL is
returned unchanged (the Go code returns the original `baseURL` string in
that branch). -/
def getTestWebhookURL (suffix : Str) (u : GoURL) : GoURL :=
  if goContains u.path webhookToken && !goContains u.path webhookTestToken then
    { u with path := goReplaceFirst webhookToken (webhookToken ++ suffix) u.path }
  else u

/-- `TestModeUtils.simpleURLModification`: the fallback used when
`url.Parse` fails — the same replacement applied to the whole raw
string. -/
def simpleURLModification (suffix : Str) (baseURL : Str) : Str :=
  if goContains baseURL webhookToken && !goContains baseURL webhookTestToken then
    goReplaceFirst webhookToken (webhookToken ++ suffix) baseURL
  else baseURL

/-- `TestModeUtils.ProcessTestMessage`: returns
`(processedBody, webhookURL, isTestMode)` — on a non-test body everything
passes through unchanged with `false`; on a test body, the body with the
prefix removed, the rewritten URL, and `true`. -/
def ProcessTestMessage (suffix : Str) (body : Str) (webhookURL : GoURL) :
    Str × GoURL × Bool :=
  if !isTestMessage body then (body, webhookURL, false)
  else (removeTestPrefix body, getTestWebhookURL suffix webhookURL, true)

/-- The processed body as the specification words it: the (trimmed) body
with the `"[test]"` prefix and the white space immediately following it
removed.  Stated without `removeTestPrefix`, so the code's behaviour can
be compared against the specification's words. -/
def specStrippedBody (body : Str) : Str :=
  ((goTrimSpace body).drop testToken.length).dropWhile isSpaceChar

/-! ## Definitions: messages and payloads (`internal/models/models.go`) -/

/-- `models.Message`: one chat stanza; all fields are Go strings.  The Go
fields `From` and `Type` are rendered `fromJid` and `msgType` because
`from` and `type` are reserved words in Lean. -/
structure Message where
  id : Str
  fromJid : Str
  toJid : Str
  body : Str
  msgType : Str
  subject : Str
  thread : Str
  stamp : Str
deriving DecidableEq

/-- `models.WebhookPayload`: the JSON body POSTed to the webhook.
`Message` is a value field (not a pointer), so copying a payload copies
the message. -/
structure WebhookPayload where
  message : Message
  timestamp : Str
  source : Str
deriving DecidableEq

/-! ## Definitions: webhook delivery (`internal/webhook/service.go`) -/

/-- The payload value that `Service.sendWebhookAttempt` actually
serializes and POSTs: its `payload` parameter is a **value** parameter of
type `models.WebhookPayload`, so the assignment
`payload.Message.Body = processedBody` (done when test mode is detected)
mutates only this local copy. -/
def sendWebhookAttemptDelivered (suffix : Str) (cfgURL : GoURL)
    (payload : WebhookPayload) : WebhookPayload :=
  let r := ProcessTestMessage suffix payload.message.body cfgURL
  if r.2.2 then { payload with message := { payload.message with body := r.1 } }
  else payload

/-- The sequence of payload values passed to `sendWebhookAttempt` by the
retry loop of `Service.sendWebhook`, one per attempt.  In the Go source
the local variable `payload` is built once before the loop and never
assigned afterwards, and each call `s.sendWebhookAttempt(payload)` passes
the struct by value; the loop therefore hands the same value to every
attempt. -/
def sendWebhookAttemptInputs (retryAttempts : Nat) (payload : WebhookPayload) :
    List WebhookPayload :=
  match retryAttempts with
  | 0 => []
  | Nat.succ n => payload :: sendWebhookAttemptInputs n payload

/-- Observable events of one `Service.sendWebhook` run: an HTTP delivery
attempt (with its 1-based attempt number), a `time.Sleep` of the given
number of seconds, and the final `updateStats` call (success or
failure). -/
inductive WebhookEvent where
  | httpAttempt (i : Nat)
  | sleepSecs (s : Nat)
  | recordSuccess
  | recordFailure
deriving DecidableEq

/-- The retry loop of `Service.sendWebhook`, as the list of events it
emits.  `fails i` tells whether the HTTP attempt number `i` fails
(transport error or non-2xx status).  Arguments: the number of remaining
loop iterations and the current 1-based attempt number.  Mirrors the Go
loop `for attempt := 1; attempt <= retryAttempts; attempt++`: on success
record success and return; on failure sleep `attempt²` seconds unless this
was the last attempt; after the loop record one failure. -/
def sendWebhookEvents (fails : Nat → Bool) : Nat → Nat → List WebhookEvent
  | 0, _ => [WebhookEvent.recordFailure]
  | Nat.succ r, attempt =>
    WebhookEvent.httpAttempt attempt ::
      (if fails attempt then
        (if r ≠ 0 then [WebhookEvent.sleepSecs (attempt * attempt)] else []) ++
          sendWebhookEvents fails r (attempt + 1)
      else [WebhookEvent.recordSuccess])

/-- The full event trace of `Service.sendWebhook` for one dequeued
message, with the configured `retry_attempts`. -/
def sendWebhookTrace (retryAttempts : Nat) (fails : Nat → Bool) :
    List WebhookEvent :=
  sendWebhookEvents fails retryAttempts 1

/-- `webhook.Stats`: counters (`int64`, modelled as `Nat`), timestamps
(modelled as a `Nat` logical clock; the Go zero `time.Time` is `0`), and
the last error string. -/
structure Stats where
  totalSent : Nat
  totalFailed : Nat
  lastSent : Nat
  lastFailure : Nat
  lastError : Str
deriving DecidableEq

/-- `Service.updateStats`: on success increment `TotalSent` and set
`LastSent` to now; on failure increment `TotalFailed`, set `LastFailure`
to now and store the error string. -/
def updateStats (success : Bool) (errorMsg : Str) (now : Nat) (s : Stats) :
    Stats :=
  if success then { s with totalSent := s.totalSent + 1, lastSent := now }
  else { s with
    totalFailed := s.totalFailed + 1
    lastFailure := now
    lastError := errorMsg }

/-- Folding the stats-recording events of a `sendWebhook` trace into the
service's `Stats` (non-recording events leave the stats alone).  All
recordings of one run happen at time `now` with error string
`errorMsg`. -/
def applyWebhookEvents (now : Nat) (errorMsg : Str) :
    List WebhookEvent → Stats → Stats
  | [], s => s
  | e :: rest, s =>
    applyWebhookEvents now errorMsg rest
      (match e with
       | WebhookEvent.recordSuccess => updateStats true [] now s
       | WebhookEvent.recordFailure => updateStats false errorMsg now s
       | _ => s)

/-- A sequence of delivery outcomes `(success, time)` applied to the
stats via `updateStats` (failures store an empty error string). -/
def recordOutcomes (outcomes : List (Bool × Nat)) (s : Stats) : Stats :=
  outcomes.foldl (fun st o => updateStats o.1 [] o.2 st) s

/-- `Service.IsHealthy`: false when not running; false when the configured
webhook URL is empty; false when `TotalFailed > 10` and
`LastSent.Before(LastFailure)`; true otherwise. -/
def isHealthy (running : Bool) (cfgURL : Str) (st : Stats) : Bool :=
  if !running then false
  else if cfgURL.isEmpty then false
  else if st.totalFailed > 10 && decide (st.lastSent < st.lastFailure) then false
  else true

/-! ## Definitions: delivery-queue lifecycle (`internal/webhook/service.go`) -/

/-- The sequentially observable state of a `webhook.Service`: the
`running` flag, whether `close(s.messageQueue)` has been executed, the
buffered messages, and the channel capacity (1000 in `NewService`). -/
structure ServiceState where
  running : Bool
  queueClosed : Bool
  queue : List Message
  capacity : Nat
deriving DecidableEq

/-- The lifecycle errors returned by the service. -/
inductive GoErr where
  | alreadyRunning
  | notRunning
  | queueFull
deriving DecidableEq

/-- Result of `Service.SendMessage`: a normal return (new state plus
optional error) or a runtime panic (a send on a closed channel). -/
inductive SendResult where
  | ok (s : ServiceState)
  | err (e : GoErr)
  | panicked
deriving DecidableEq

/-- `webhook.NewService`: not running, open queue channel of capacity
1000, empty buffer. -/
def newService : ServiceState :=
  { running := false, queueClosed := false, queue := [], capacity := 1000 }

/-- `Service.Start`: error if already running; otherwise set `running`.
The queue channel is created only by `NewService` and is never recreated
here. -/
def serviceStart (s : ServiceState) : Except GoErr ServiceState :=
  if s.running then Except.error GoErr.alreadyRunning
  else Except.ok { s with running := true }

/-- `Service.Stop`: no-op if not running; otherwise cancel the worker,
close the queue channel and clear `running`.  Always returns nil. -/
def serviceStop (s : ServiceState) : ServiceState :=
  if !s.running then s
  else { s with queueClosed := true, running := false }

/-- `Service.SendMessage`: error if not running; otherwise the
`select`/`default` non-blocking enqueue — a send case on a closed channel
is always ready and panics; with the channel open it succeeds exactly when
the buffer has free capacity, and otherwise takes the `default` branch and
returns the queue-full error.  The caller is never blocked (the function
is total). -/
def serviceSendMessage (s : ServiceState) (m : Message) : SendResult :=
  if !s.running then SendResult.err GoErr.notRunning
  else if s.queueClosed then SendResult.panicked
  else if s.queue.length < s.capacity then
    SendResult.ok { s with queue := s.queue ++ [m] }
  else SendResult.err GoErr.queueFull

/-! ## Definitions: XMPP client disconnect (`internal/xmpp/client.go`) -/

/-- The state of an `xmpp.Client` that `Disconnect` touches: the
`connected` flag, whether `close(c.messageChan)` has been executed, and
how many times the monitor context was cancelled and the underlying
session was closed. -/
structure ClientState where
  connected : Bool
  chanClosed : Bool
  cancelCount : Nat
  sessionCloseCount : Nat
deriving DecidableEq

/-- Result of `Client.Disconnect`: a normal return or a runtime panic
(`close` of an already-closed channel). -/
inductive DisconnectResult where
  | ok (c : ClientState)
  | panicked (c : ClientState)
deriving DecidableEq

/-- `Client.Disconnect`, statement by statement: call `c.cancelFunc()`,
set `connected` to false, call `c.client.Disconnect()` (close the
session), then `close(c.messageChan)` — which panics when the channel is
already closed.  There is no guard anywhere against a repeated call.
(The mutex is abstracted away; in the real code `Disconnect` holds `c.mu`
and then calls `setConnected`, which locks `c.mu` again — a self-deadlock
of the non-reentrant lock — so this model is the behaviour the statements
would have if the nested lock were re-entrant.) -/
def clientDisconnect (c : ClientState) : DisconnectResult :=
  let c1 : ClientState :=
    { connected := false
      chanClosed := c.chanClosed
      cancelCount := c.cancelCount + 1
      sessionCloseCount := c.sessionCloseCount + 1 }
  if c.chanClosed then DisconnectResult.panicked c1
  else DisconnectResult.ok { c1 with chanClosed := true }

/-! ## Definitions: fan-in merge (`internal/xmpp/manager.go`) -/

/-- A configuration of `Manager.mergeChannels`: the messages each source
channel still holds (in arrival order), the messages emitted on the merged
output channel so far, and whether the output channel has been closed. -/
structure MergeState where
  sources : List (List Message)
  output : List Message
  closed : Bool

/-- The starting configuration: all source messages pending, nothing
emitted, output open. -/
def initMergeState (srcs : List (List Message)) : MergeState :=
  { sources := srcs, output := [], closed := false }

/-- One scheduler step of the fan-in.  `forward`: the forwarding goroutine
of source `i` (`for msg := range c { output <- msg }`) moves its next
pending message to the output channel — goroutines are chosen
nondeterministically, which models every interleaving.  `close`: the
coordinator goroutine (`wg.Wait(); close(output)`) closes the output
channel; `wg.Wait` returns only after every forwarding goroutine has
exited, i.e. when every source is drained (and closed). -/
inductive MergeStep : MergeState → MergeState → Prop where
  | forward (st : MergeState) (i : Nat) (m : Message) (rest : List Message)
      (hi : st.sources.get? i = some (m :: rest)) (hc : st.closed = false) :
      MergeStep st
        { sources := st.sources.set i rest
          output := st.output ++ [m]
          closed := false }
  | close (st : MergeState) (he : ∀ l ∈ st.sources, l = [])
      (hc : st.closed = false) :
      MergeStep st { st with closed := true }

/-! ## Sanity checks on the embedding -/

example : isTestMessage "[test] hello world".data = true := by decide
example : isTestMessage "hello [test] world".data = false := by decide
example : removeTestPrefix "[test] hello world".data = "hello world".data := by decide
example : removeTestPrefix "   [test]   hi".data = "hi".data := by decide
example :
    getTestWebhookURL defaultTestSuffix
      ⟨"https".data, "example.com".data, "/webhook".data, []⟩ =
      ⟨"https".data, "example.com".data, "/webhook-test".data, []⟩ := by decide
example :
    getTestWebhookURL defaultTestSuffix
      ⟨"https".data, "n8n.example.com".data, "/webhook/production/v1".data, []⟩ =
      ⟨"https".data, "n8n.example.com".data, "/webhook-test/production/v1".data, []⟩ := by
  decide

/-! ## Lemmas and theorems -/

lemma goTrimSpace_eq_rdropWhile (s : Str) :
    goTrimSpace s = List.rdropWhile isSpaceChar (s.dropWhile isSpaceChar) := rfl

lemma goTrimSpace_getLast_not_space (s : Str) (c : Char)
    (h : (goTrimSpace s).getLast? = some c) : isSpaceChar c = false := by
  rw [goTrimSpace_eq_rdropWhile] at h
  obtain ⟨hne, rfl⟩ := List.mem_getLast?_eq_getLast h
  have := List.rdropWhile_last_not isSpaceChar (s.dropWhile isSpaceChar) hne
  exact Bool.not_eq_true _ ▸ this

lemma getLast?_of_suffix {l d : Str} (h : d <:+ l) (hd : d ≠ []) :
    l.getLast? = d.getLast? := by
  obtain ⟨t, rfl⟩ := h
  exact List.getLast?_append_of_ne_nil t hd

/-- Trimming a string whose last character is not white space only drops
from the front. -/
lemma goTrimSpace_eq_dropWhile (l : Str)
    (hl : ∀ c, l.getLast? = some c → isSpaceChar c = false) :
    goTrimSpace l = l.dropWhile isSpaceChar := by
  rw [goTrimSpace_eq_rdropWhile, List.rdropWhile_eq_self_iff]
  intro hne
  have hsuff : l.dropWhile isSpaceChar <:+ l := List.dropWhile_suffix _
  have hgl : l.getLast? = (l.dropWhile isSpaceChar).getLast? :=
    getLast?_of_suffix hsuff hne
  have h2 := List.getLast?_eq_getLast_of_ne_nil hne
  have h3 := hl _ (hgl.trans h2)
  simp [h3]

/-- On a test body, `removeTestPrefix` computes exactly what the
specification describes: the trimmed body minus the token and the spaces
following it. -/
lemma removeTestPrefix_eq_spec (body : Str)
    (h : goHasPrefix (goTrimSpace body) testToken = true) :
    removeTestPrefix body = specStrippedBody body := by
  have hp : testToken <+: goTrimSpace body := List.isPrefixOf_iff_prefix.mp h
  obtain ⟨rest, hrest⟩ := hp
  have hdrop : (goTrimSpace body).drop testToken.length = rest := by
    rw [← hrest, List.drop_left]
  unfold removeTestPrefix specStrippedBody goTrimPrefix
  rw [if_pos h, if_pos (by simpa [goHasPrefix] using h), hdrop]
  apply goTrimSpace_eq_dropWhile
  intro c hc
  have hrne : rest ≠ [] := by
    intro habs; rw [habs] at hc; exact Option.noConfusion hc
  have : (goTrimSpace body).getLast? = rest.getLast? := by
    rw [← hrest]; exact List.getLast?_append_of_ne_nil _ hrne
  exact goTrimSpace_getLast_not_space body c (this.trans hc)

/-- **Claim C1.**  For every message body whose trimmed form starts with
the literal `"[test]"`, `ProcessTestMessage(body, url)` returns the body
with the prefix and the following spaces removed, the rewritten test URL,
and `true`; for every other body it returns the body unchanged, the URL
unchanged, and `false`. -/
theorem c1_process_test_message (suffix body : Str) (url : GoURL) :
    (goHasPrefix (goTrimSpace body) testToken = true →
      ProcessTestMessage suffix body url =
        (specStrippedBody body, getTestWebhookURL suffix url, true)) ∧
    (goHasPrefix (goTrimSpace body) testToken = false →
      ProcessTestMessage suffix body url = (body, url, false)) := by
  constructor <;> intro h <;>
    simp [ProcessTestMessage, isTestMessage, h, removeTestPrefix_eq_spec]

/-- Witness for C1: the specification's concrete scenario A (test branch)
and scenario B (pass-through branch). -/
theorem c1_process_test_message_witness :
    (goHasPrefix (goTrimSpace "[test] hello world".data) testToken = true ∧
      ProcessTestMessage defaultTestSuffix "[test] hello world".data
          ⟨"https".data, "example.com".data, "/webhook".data, []⟩ =
        ("hello world".data,
          ⟨"https".data, "example.com".data, "/webhook-test".data, []⟩, true)) ∧
    (goHasPrefix (goTrimSpace "hello [test] world".data) testToken = false ∧
      ProcessTestMessage defaultTestSuffix "hello [test] world".data
          ⟨"https".data, "example.com".data, "/webhook".data, []⟩ =
        ("hello [test] world".data,
          ⟨"https".data, "example.com".data, "/webhook".data, []⟩, false)) := by
  constructor
  · refine ⟨by decide, ?_⟩
    have h := (c1_process_test_message defaultTestSuffix "[test] hello world".data
      ⟨"https".data, "example.com".data, "/webhook".data, []⟩).1 (by decide)
    rw [h]; decide
  · refine ⟨by decide, ?_⟩
    exact (c1_process_test_message defaultTestSuffix "hello [test] world".data
      ⟨"https".data, "example.com".data, "/webhook".data, []⟩).2 (by decide)

lemma goContains_of_isPrefixOf {s sub : Str} (h : sub.isPrefixOf s = true) :
    goContains s sub = true := by
  cases s with
  | nil =>
    have : sub = [] := List.prefix_nil.mp (List.isPrefixOf_iff_prefix.mp h)
    simp [goContains, this]
  | cons c t => simp [goContains, h]

lemma goContains_cons {s sub : Str} (c : Char) (h : goContains s sub = true) :
    goContains (c :: s) sub = true := by
  simp [goContains, h]

lemma goContains_append_left {s sub : Str} (a : Str)
    (h : goContains s sub = true) : goContains (a ++ s) sub = true := by
  induction a with
  | nil => simpa using h
  | cons c t ih => exact goContains_cons c ih

/-- A string that is literally of the form `a ++ sub ++ b` contains
`sub`. -/
lemma goContains_append_middle (a sub b : Str) :
    goContains (a ++ (sub ++ b)) sub = true :=
  goContains_append_left a
    (goContains_of_isPrefixOf (List.isPrefixOf_iff_prefix.mpr (List.prefix_append sub b)))

/-- When `s` contains `old`, `goReplaceFirst` splits `s` around the first
occurrence and substitutes `new` there. -/
lemma goReplaceFirst_of_contains {old s : Str} (new : Str)
    (h : goContains s old = true) :
    ∃ a b, s = a ++ (old ++ b) ∧ goReplaceFirst old new s = a ++ (new ++ b) := by
  induction s with
  | nil =>
    have hold : old = [] := by simpa [goContains, List.isEmpty_iff] using h
    exact ⟨[], [], by simp [hold], by simp [goReplaceFirst, hold]⟩
  | cons c t ih =>
    by_cases hp : old.isPrefixOf (c :: t) = true
    · obtain ⟨u, hu⟩ := List.isPrefixOf_iff_prefix.mp hp
      refine ⟨[], u, by simp [hu], ?_⟩
      have hdrop : (c :: t).drop old.length = u := by rw [← hu, List.drop_left]
      simp [goReplaceFirst, hp, hdrop]
    · have ht : goContains t old = true := by
        have := h
        simp only [goContains, Bool.or_eq_true] at this
        exact this.resolve_left (by simpa using hp)
      obtain ⟨a, b, heq, hrep⟩ := ih ht
      refine ⟨c :: a, b, by simp [heq], ?_⟩
      simp [goReplaceFirst, hp, hrep]

/-- After replacing the first `old` by `new`, the result contains
`new`. -/
lemma goContains_goReplaceFirst {old s : Str} (new : Str)
    (h : goContains s old = true) :
    goContains (goReplaceFirst old new s) new = true := by
  obtain ⟨a, b, _, hrep⟩ := goReplaceFirst_of_contains new h
  rw [hrep]
  exact goContains_append_middle a new b

/-- **Claim C7.**  A URL whose path already contains `"webhook-test"` is
returned unchanged by `getTestWebhookURL`; a URL whose path contains no
`"webhook"` is returned unchanged; hence, with the default `"-test"`
suffix, the rewrite is idempotent.  The same three facts hold for the
raw-string fallback `simpleURLModification`. -/
theorem c7_url_rewrite_idempotent :
    (∀ (suffix : Str) (u : GoURL), goContains u.path webhookTestToken = true →
        getTestWebhookURL suffix u = u) ∧
    (∀ (suffix : Str) (u : GoURL), goContains u.path webhookToken = false →
        getTestWebhookURL suffix u = u) ∧
    (∀ u : GoURL,
        getTestWebhookURL defaultTestSuffix (getTestWebhookURL defaultTestSuffix u) =
          getTestWebhookURL defaultTestSuffix u) ∧
    (∀ (suffix : Str) (s : Str), goContains s webhookTestToken = true →
        simpleURLModification suffix s = s) ∧
    (∀ (suffix : Str) (s : Str), goContains s webhookToken = false →
        simpleURLModification suffix s = s) ∧
    (∀ s : Str,
        simpleURLModification defaultTestSuffix
            (simpleURLModification defaultTestSuffix s) =
          simpleURLModification defaultTestSuffix s) := by
  have hsuffix : webhookToken ++ defaultTestSuffix = webhookTestToken := rfl
  refine ⟨?_, ?_, ?_, ?_, ?_, ?_⟩
  · intro suffix u h; simp [getTestWebhookURL, h]
  · intro suffix u h; simp [getTestWebhookURL, h]
  · intro u
    by_cases hc : goContains u.path webhookToken = true ∧
        goContains u.path webhookTestToken = false
    · have h1 : getTestWebhookURL defaultTestSuffix u =
          { u with path := goReplaceFirst webhookToken webhookTestToken u.path } := by
        simp [getTestWebhookURL, hc.1, hc.2, hsuffix]
      rw [h1]
      have h2 : goContains
          (goReplaceFirst webhookToken webhookTestToken u.path) webhookTestToken =
            true := goContains_goReplaceFirst webhookTestToken hc.1
      simp [getTestWebhookURL, h2]
    · have h1 : getTestWebhookURL defaultTestSuffix u = u := by
        rcases Decidable.not_and_iff_or_not.mp hc with h | h
        · simp [getTestWebhookURL, Bool.eq_false_iff.mpr h]
        · have : goContains u.path webhookTestToken = true := by
            simpa using h
          simp [getTestWebhookURL, this]
      rw [h1, h1]
  · intro suffix s h; simp [simpleURLModification, h]
  · intro suffix s h; simp [simpleURLModification, h]
  · intro s
    by_cases hc : goContains s webhookToken = true ∧
        goContains s webhookTestToken = false
    · have h1 : simpleURLModification defaultTestSuffix s =
          goReplaceFirst webhookToken webhookTestToken s := by
        simp [simpleURLModification, hc.1, hc.2, hsuffix]
      rw [h1]
      have h2 : goContains
          (goReplaceFirst webhookToken webhookTestToken s) webhookTestToken =
            true := goContains_goReplaceFirst webhookTestToken hc.1
      simp [simpleURLModification, h2]
    · have h1 : simpleURLModification defaultTestSuffix s = s := by
        rcases Decidable.not_and_iff_or_not.mp hc with h | h
        · simp [simpleURLModification, Bool.eq_false_iff.mpr h]
        · have : goContains s webhookTestToken = true := by simpa using h
          simp [simpleURLModification, this]
      rw [h1, h1]

/-- Witness for C7: both unchanged cases and the idempotence at concrete
URLs from the repository's test suite. -/
theorem c7_url_rewrite_idempotent_witness :
    (goContains "/webhook-test".data webhookTestToken = true ∧
      getTestWebhookURL defaultTestSuffix
          ⟨"https".data, "example.com".data, "/webhook-test".data, []⟩ =
        ⟨"https".data, "example.com".data, "/webhook-test".data, []⟩) ∧
    (goContains "/api/endpoint".data webhookToken = false ∧
      getTestWebhookURL defaultTestSuffix
          ⟨"https".data, "example.com".data, "/api/endpoint".data, []⟩ =
        ⟨"https".data, "example.com".data, "/api/endpoint".data, []⟩) ∧
    getTestWebhookURL defaultTestSuffix
        (getTestWebhookURL defaultTestSuffix
          ⟨"https".data, "example.com".data, "/webhook".data, []⟩) =
      getTestWebhookURL defaultTestSuffix
        ⟨"https".data, "example.com".data, "/webhook".data, []⟩ := by
  refine ⟨⟨by decide, ?_⟩, ⟨by decide, ?_⟩, ?_⟩
  · exact c7_url_rewrite_idempotent.1 defaultTestSuffix
      ⟨"https".data, "example.com".data, "/webhook-test".data, []⟩ (by decide)
  · exact c7_url_rewrite_idempotent.2.1 defaultTestSuffix
      ⟨"https".data, "example.com".data, "/api/endpoint".data, []⟩ (by decide)
  · exact c7_url_rewrite_idempotent.2.2.1
      ⟨"https".data, "example.com".data, "/webhook".data, []⟩

/-- The attempt-input sequence of the retry loop is the same payload value
repeated: `payload` is never reassigned in `sendWebhook` and is passed by
value to each attempt, so no attempt's local stripping reaches the
next. -/
lemma sendWebhookAttemptInputs_eq_replicate (n : Nat) (p : WebhookPayload) :
    sendWebhookAttemptInputs n p = List.replicate n p := by
  induction n with
  | zero => rfl
  | succ k ih => simp [sendWebhookAttemptInputs, List.replicate, ih]

/-- **Counterexample to claim C2.**  Concrete test-mode payload with body
`"[test] hello"`, three configured attempts, first attempt failing: the
payload the second attempt receives still carries the original body, not
the stripped body the claim says persists — and the two differ. -/
theorem c2_counterexample :
    (sendWebhookAttemptInputs 3
          ⟨⟨[], "alice@example.com".data, "bot@example.com".data,
            "[test] hello".data, "chat".data, [], [], []⟩,
            "2024-01-01T00:00:00Z".data, "jabber-bot".data⟩).get? 1 ≠
      some ⟨⟨[], "alice@example.com".data, "bot@example.com".data,
            "hello".data, "chat".data, [], [], []⟩,
            "2024-01-01T00:00:00Z".data, "jabber-bot".data⟩ ∧
    (sendWebhookAttemptDelivered defaultTestSuffix
          ⟨"https".data, "example.com".data, "/webhook".data, []⟩
          ⟨⟨[], "alice@example.com".data, "bot@example.com".data,
            "[test] hello".data, "chat".data, [], [], []⟩,
            "2024-01-01T00:00:00Z".data, "jabber-bot".data⟩).message.body =
      "hello".data := by
  constructor
  · decide
  · decide

/-- **Claim C2, amended.**  `sendWebhookAttempt` receives the payload by
value, so the test-mode stripping mutates only a per-attempt copy: every
attempt of the retry loop sees the original payload unchanged (the input
list is the original value replicated), and consequently every attempt
delivers the same stripped payload. -/
theorem c2_payload_not_mutated_across_attempts (n : Nat) (p : WebhookPayload)
    (suffix : Str) (cfgURL : GoURL) :
    sendWebhookAttemptInputs n p = List.replicate n p ∧
    ∀ q ∈ sendWebhookAttemptInputs n p,
      sendWebhookAttemptDelivered suffix cfgURL q =
        sendWebhookAttemptDelivered suffix cfgURL p := by
  refine ⟨sendWebhookAttemptInputs_eq_replicate n p, ?_⟩
  intro q hq
  rw [sendWebhookAttemptInputs_eq_replicate] at hq
  rw [List.eq_of_mem_replicate hq]

/-- Shape of the retry loop's event list when every attempt fails,
generalized over the starting attempt number `a` and the remaining
iteration count `r`. -/
lemma sendWebhookEvents_all_fail (fails : Nat → Bool) (hf : ∀ i, fails i = true) :
    ∀ (r a : Nat),
      sendWebhookEvents fails r a =
        ((List.range' a r).map (fun i =>
            WebhookEvent.httpAttempt i ::
              if i + 1 < a + r then [WebhookEvent.sleepSecs (i * i)] else [])).flatten ++
          [WebhookEvent.recordFailure] := by
  intro r
  induction r with
  | zero => intro a; rfl
  | succ k ih =>
    intro a
    simp only [sendWebhookEvents, hf a, if_true, List.range'_succ, List.map_cons,
      List.flatten, ih (a + 1)]
    by_cases hk : k = 0
    · subst hk
      simp
    · have h1 : a + 1 < a + (k + 1) := by omega
      have h2 : a + 1 + k = a + (k + 1) := by omega
      rw [if_pos hk, if_pos h1, h2]
      simp

/-- **Claim C3.**  Against an endpoint where every attempt fails, one
dequeued message produces exactly `retry_attempts` HTTP attempts, numbered
1..n, with a sleep of `i²` seconds after attempt `i` exactly when more
attempts remain (so 1s, 4s, 9s, ... between consecutive attempts and no
sleep after the final one), followed by exactly one recorded failure. -/
theorem c3_retry_count_and_backoff (n : Nat) (fails : Nat → Bool)
    (hf : ∀ i, fails i = true) :
    sendWebhookTrace n fails =
      ((List.range' 1 n).map (fun i =>
          WebhookEvent.httpAttempt i ::
            if i < n then [WebhookEvent.sleepSecs (i * i)] else [])).flatten ++
        [WebhookEvent.recordFailure] := by
  rw [sendWebhookTrace, sendWebhookEvents_all_fail fails hf n 1]
  congr 1
  apply congrArg
  apply List.map_congr_left
  intro i _
  have : i + 1 < 1 + n ↔ i < n := by omega
  simp only [this]

/-- Witness for C3: three failing attempts yield attempt 1, sleep 1s,
attempt 2, sleep 4s, attempt 3, one recorded failure — and nothing
else. -/
theorem c3_retry_count_and_backoff_witness :
    sendWebhookTrace 3 (fun _ => true) =
      [WebhookEvent.httpAttempt 1, WebhookEvent.sleepSecs 1,
       WebhookEvent.httpAttempt 2, WebhookEvent.sleepSecs 4,
       WebhookEvent.httpAttempt 3, WebhookEvent.recordFailure] := by
  rw [c3_retry_count_and_backoff 3 (fun _ => true) (fun _ => rfl)]
  decide

lemma applyWebhookEvents_append (now : Nat) (errMsg : Str) (l1 l2 : List WebhookEvent)
    (s : Stats) :
    applyWebhookEvents now errMsg (l1 ++ l2) s =
      applyWebhookEvents now errMsg l2 (applyWebhookEvents now errMsg l1 s) := by
  induction l1 generalizing s with
  | nil => rfl
  | cons e t ih => simp [applyWebhookEvents, ih]

/-- Any run of the retry loop — whatever the attempt outcomes — records
exactly one outcome in the stats: the sent/failed total rises by exactly
one and neither counter falls. -/
lemma sendWebhookEvents_stats (fails : Nat → Bool) (now : Nat) (errMsg : Str) :
    ∀ (r a : Nat) (s : Stats),
      (applyWebhookEvents now errMsg (sendWebhookEvents fails r a) s).totalSent +
          (applyWebhookEvents now errMsg (sendWebhookEvents fails r a) s).totalFailed =
        s.totalSent + s.totalFailed + 1 ∧
      s.totalSent ≤
        (applyWebhookEvents now errMsg (sendWebhookEvents fails r a) s).totalSent ∧
      s.totalFailed ≤
        (applyWebhookEvents now errMsg (sendWebhookEvents fails r a) s).totalFailed := by
  intro r
  induction r with
  | zero =>
    intro a s
    simp [sendWebhookEvents, applyWebhookEvents, updateStats]
    omega
  | succ k ih =>
    intro a s
    by_cases hf : fails a
    · have hstep : applyWebhookEvents now errMsg (sendWebhookEvents fails (k + 1) a) s =
          applyWebhookEvents now errMsg (sendWebhookEvents fails k (a + 1)) s := by
        by_cases hk : k = 0 <;>
          simp [sendWebhookEvents, hf, hk, applyWebhookEvents,
            applyWebhookEvents_append]
      rw [hstep]
      exact ih (a + 1) s
    · simp [sendWebhookEvents, hf, applyWebhookEvents, updateStats]
      omega

/-- **Claim C6.**  For every completed processing of one dequeued message
(success or exhaustion of the attempts), `TotalSent + TotalFailed` grows
by exactly 1 and neither counter decreases; moreover every single
`updateStats` call is monotone in both counters, so the counters never
decrease during a process lifetime. -/
theorem c6_stats_monotone (n : Nat) (fails : Nat → Bool) (now : Nat)
    (errMsg : Str) (s : Stats) :
    ((applyWebhookEvents now errMsg (sendWebhookTrace n fails) s).totalSent +
        (applyWebhookEvents now errMsg (sendWebhookTrace n fails) s).totalFailed =
      s.totalSent + s.totalFailed + 1 ∧
      s.totalSent ≤
        (applyWebhookEvents now errMsg (sendWebhookTrace n fails) s).totalSent ∧
      s.totalFailed ≤
        (applyWebhookEvents now errMsg (sendWebhookTrace n fails) s).totalFailed) ∧
    ∀ (success : Bool) (msg : Str) (t : Nat) (st : Stats),
      st.totalSent ≤ (updateStats success msg t st).totalSent ∧
      st.totalFailed ≤ (updateStats success msg t st).totalFailed := by
  refine ⟨sendWebhookEvents_stats fails now errMsg n 1 s, ?_⟩
  intro success msg t st
  cases success <;> simp [updateStats]

/-- **Claim C5.**  `IsHealthy` is false when the service is not running,
false when the configured webhook URL is empty, false when `TotalFailed`
exceeds 10 with `LastSent` strictly before `LastFailure`, and true in
every other case; in particular (scenario D) it is false after 11
consecutive recorded failures on fresh stats with no intervening success,
and true again after one subsequent recorded success. -/
theorem c5_is_healthy :
    (∀ (running : Bool) (cfgURL : Str) (st : Stats),
        isHealthy running cfgURL st = true ↔
          running = true ∧ cfgURL ≠ [] ∧
            ¬(10 < st.totalFailed ∧ st.lastSent < st.lastFailure)) ∧
    isHealthy true "https://example.com/webhook".data
        (recordOutcomes ((List.range' 1 11).map (fun t => (false, t)))
          ⟨0, 0, 0, 0, []⟩) = false ∧
    isHealthy true "https://example.com/webhook".data
        (updateStats true [] 12
          (recordOutcomes ((List.range' 1 11).map (fun t => (false, t)))
            ⟨0, 0, 0, 0, []⟩)) = true := by
  refine ⟨?_, by decide, by decide⟩
  intro running cfgURL st
  cases running with
  | false => simp [isHealthy]
  | true =>
    cases cfgURL with
    | nil => simp [isHealthy]
    | cons c t =>
      by_cases hc : 10 < st.totalFailed ∧ st.lastSent < st.lastFailure
      · simp [isHealthy, hc.1, hc.2, hc]
      · have hb : (decide (st.totalFailed > 10) &&
            decide (st.lastSent < st.lastFailure)) = false := by
          rcases Decidable.not_and_iff_or_not.mp hc with h | h <;> simp [h]
        simp [isHealthy, hb, hc]

/-- **Claim C4.**  While the queue channel is open (no `Stop` has closed
it), `SendMessage` never blocks and never panics: it returns the
not-running error when the service is not running, enqueues and returns
nil (`ok`) when the bounded buffer has free capacity, and returns the
queue-full error otherwise; and `NewService` creates the channel with
capacity 1000.  (The one state with the channel closed while `running`
reads true — reachable only through Start-Stop-Start — panics instead and
is the subject of claim C10.) -/
theorem c4_send_message_non_blocking (s : ServiceState) (m : Message)
    (hopen : s.queueClosed = false) :
    serviceSendMessage s m =
      (if s.running = false then SendResult.err GoErr.notRunning
       else if s.queue.length < s.capacity then
         SendResult.ok { s with queue := s.queue ++ [m] }
       else SendResult.err GoErr.queueFull) ∧
    newService.capacity = 1000 := by
  refine ⟨?_, rfl⟩
  cases hr : s.running <;> simp [serviceSendMessage, hr, hopen]

/-- Witness for C4: the specification's concrete scenario C — a running
service with capacity 2 whose buffer already holds two messages rejects a
third enqueue with the queue-full error. -/
theorem c4_send_message_non_blocking_witness :
    serviceSendMessage
        { running := true, queueClosed := false,
          queue := [⟨[], "a".data, "b".data, "m1".data, [], [], [], []⟩,
                    ⟨[], "a".data, "b".data, "m2".data, [], [], [], []⟩],
          capacity := 2 }
        ⟨[], "a".data, "b".data, "m3".data, [], [], [], []⟩ =
      SendResult.err GoErr.queueFull := by
  have h := (c4_send_message_non_blocking
    { running := true, queueClosed := false,
      queue := [⟨[], "a".data, "b".data, "m1".data, [], [], [], []⟩,
                ⟨[], "a".data, "b".data, "m2".data, [], [], [], []⟩],
      capacity := 2 }
    ⟨[], "a".data, "b".data, "m3".data, [], [], [], []⟩ rfl).1
  rw [h]
  decide

/-- **Claim C10.**  After `Start`, `Stop`, `Start` (each returning nil,
i.e. `ok`), the queue channel closed by `Stop` was never recreated, the
service again reports running, and any `SendMessage` call now executes
the select's send case on the closed channel and panics instead of
returning an error. -/
theorem c10_start_stop_start_panics (m : Message) :
    serviceStart newService =
        Except.ok { running := true, queueClosed := false, queue := [],
                    capacity := 1000 } ∧
    serviceStop { running := true, queueClosed := false, queue := [],
                  capacity := 1000 } =
      { running := false, queueClosed := true, queue := [], capacity := 1000 } ∧
    serviceStart { running := false, queueClosed := true, queue := [],
                   capacity := 1000 } =
      Except.ok { running := true, queueClosed := true, queue := [],
                  capacity := 1000 } ∧
    serviceSendMessage { running := true, queueClosed := true, queue := [],
                         capacity := 1000 } m =
      SendResult.panicked := by
  exact ⟨rfl, rfl, rfl, rfl⟩

/-- **Claim C8** (evaluation at the failing input).  `Client.Disconnect`
has no double-call guard: from a connected client with an open inbound
channel, the first call succeeds (cancelling the monitor, closing the
session and the channel once each), and a second call re-runs the cancel
and the session close (counts rise to 2) and reaches
`close(c.messageChan)` on the already-closed channel, which panics — the
claimed guard does not exist in the code. -/
theorem c8_double_disconnect_panics :
    clientDisconnect
        { connected := true, chanClosed := false, cancelCount := 0,
          sessionCloseCount := 0 } =
      DisconnectResult.ok
        { connected := false, chanClosed := true, cancelCount := 1,
          sessionCloseCount := 1 } ∧
    clientDisconnect
        { connected := false, chanClosed := true, cancelCount := 1,
          sessionCloseCount := 1 } =
      DisconnectResult.panicked
        { connected := false, chanClosed := true, cancelCount := 2,
          sessionCloseCount := 2 } := by
  exact ⟨rfl, rfl⟩

/-- Moving the head message out of source `i` keeps the total multiset of
pending messages plus the moved message constant. -/
lemma multiset_sum_set (l : List (List Message)) (i : Nat) (m : Message)
    (rest : List Message) (h : l.get? i = some (m :: rest)) :
    ((l.set i rest).map Multiset.ofList).sum + {m} =
      (l.map Multiset.ofList).sum := by
  induction l generalizing i with
  | nil => simp at h
  | cons hd tl ih =>
    cases i with
    | zero =>
      simp only [List.get?] at h
      injection h with h
      subst h
      simp only [List.set, List.map_cons, List.sum_cons]
      have hcons : Multiset.ofList (m :: rest) = {m} + Multiset.ofList rest := by
        rw [Multiset.singleton_add]
        exact (Multiset.cons_coe m rest).symm
      rw [hcons]
      abel
    | succ j =>
      simp only [List.get?] at h
      simp only [List.set, List.map_cons, List.sum_cons]
      rw [add_assoc, ih j h]

/-- One fan-in step preserves the conservation invariant: emitted plus
pending messages form the original multiset, and a closed configuration
has every source drained. -/
lemma mergeStep_invariant {srcs : List (List Message)} {st st' : MergeState}
    (hstep : MergeStep st st')
    (hinv : Multiset.ofList st.output +
        (st.sources.map Multiset.ofList).sum = (srcs.map Multiset.ofList).sum) :
    (Multiset.ofList st'.output +
        (st'.sources.map Multiset.ofList).sum = (srcs.map Multiset.ofList).sum) ∧
    (st'.closed = true → ∀ l ∈ st'.sources, l = []) := by
  cases hstep with
  | forward i m rest hi hc =>
    refine ⟨?_, by intro habs; exact absurd habs (by simp)⟩
    have hs := multiset_sum_set st.sources i m rest hi
    have happ : Multiset.ofList (st.output ++ [m]) =
        Multiset.ofList st.output + {m} := rfl
    calc Multiset.ofList (st.output ++ [m]) +
          ((st.sources.set i rest).map Multiset.ofList).sum
        = Multiset.ofList st.output +
            (((st.sources.set i rest).map Multiset.ofList).sum + {m}) := by
          rw [happ]; abel
      _ = (srcs.map Multiset.ofList).sum := by rw [hs, hinv]
  | close he hc => exact ⟨hinv, fun _ => he⟩

/-- Conservation along any execution of the fan-in from the initial
configuration. -/
lemma mergeSteps_invariant (srcs : List (List Message)) (st : MergeState)
    (h : Relation.ReflTransGen MergeStep (initMergeState srcs) st) :
    (Multiset.ofList st.output +
        (st.sources.map Multiset.ofList).sum = (srcs.map Multiset.ofList).sum) ∧
    (st.closed = true → ∀ l ∈ st.sources, l = []) := by
  induction h with
  | refl =>
    refine ⟨?_, ?_⟩
    · have h0 : Multiset.ofList ([] : List Message) = 0 := rfl
      simp [initMergeState, h0]
    · intro habs
      exact absurd habs (by simp [initMergeState])
  | tail hrt hstep ih => exact mergeStep_invariant hstep ih.1

/-- From any open configuration a closed configuration is reachable: keep
forwarding until every source is drained, then close. -/
lemma merge_progress :
    ∀ (n : Nat) (cur : MergeState), cur.closed = false →
      Multiset.card ((cur.sources.map Multiset.ofList).sum) = n →
      ∃ st, Relation.ReflTransGen MergeStep cur st ∧ st.closed = true := by
  intro n
  induction n using Nat.strong_induction_on with
  | _ n ih =>
    intro cur hc hn
    by_cases hall : ∀ l ∈ cur.sources, l = []
    · exact ⟨{ cur with closed := true },
        Relation.ReflTransGen.single (MergeStep.close cur hall hc), rfl⟩
    · push_neg at hall
      obtain ⟨l, hl, hlne⟩ := hall
      obtain ⟨i, hi⟩ := List.get?_of_mem hl
      cases l with
      | nil => exact absurd rfl hlne
      | cons m rest =>
        have hs := multiset_sum_set cur.sources i m rest hi
        have hcard :
            Multiset.card (((cur.sources.set i rest).map Multiset.ofList).sum) +
              1 = n := by
          have hc2 := congrArg Multiset.card hs
          simpa using hc2.trans (congrArg id hn)
        have hlt :
            Multiset.card (((cur.sources.set i rest).map Multiset.ofList).sum) <
              n := by omega
        obtain ⟨st, hrt, hcl⟩ := ih _ hlt
          { sources := cur.sources.set i rest, output := cur.output ++ [m],
            closed := false } rfl rfl
        exact ⟨st, Relation.ReflTransGen.head
          (MergeStep.forward cur i m rest hi hc) hrt, hcl⟩

/-- **Claim C9.**  Whatever the goroutine interleaving, when the merged
output channel of `mergeChannels` closes, it has emitted exactly the
multiset union of all source messages — none lost, none duplicated — and
every source is drained (every forwarding goroutine has exited, which is
what enables the close); and a closing execution always exists. -/
theorem c9_merge_channels_fan_in :
    (∀ (srcs : List (List Message)) (st : MergeState),
        Relation.ReflTransGen MergeStep (initMergeState srcs) st →
        st.closed = true →
          Multiset.ofList st.output = (srcs.map Multiset.ofList).sum ∧
          ∀ l ∈ st.sources, l = []) ∧
    (∀ srcs : List (List Message), ∃ st,
        Relation.ReflTransGen MergeStep (initMergeState srcs) st ∧
          st.closed = true) := by
  constructor
  · intro srcs st h hcl
    obtain ⟨hsum, hdrained⟩ := mergeSteps_invariant srcs st h
    refine ⟨?_, hdrained hcl⟩
    have hempty : (st.sources.map Multiset.ofList).sum = 0 := by
      apply List.sum_eq_zero
      intro x hx
      obtain ⟨l, hl, rfl⟩ := List.mem_map.mp hx
      rw [hdrained hcl l hl]
      rfl
    rw [hempty, add_zero] at hsum
    exact hsum
  · intro srcs
    exact merge_progress _ (initMergeState srcs) rfl rfl

/-- Witness for C9: two concrete single-message sources, the execution
that forwards source 0, then source 1, then closes; the closed output is
exactly the two messages. -/
theorem c9_merge_channels_fan_in_witness :
    Multiset.ofList
        [⟨[], "sender1".data, [], "message1".data, [], [], [], []⟩,
         ⟨[], "sender2".data, [], "message2".data, [], [], [], []⟩] =
      (([[⟨[], "sender1".data, [], "message1".data, [], [], [], []⟩],
         [⟨[], "sender2".data, [], "message2".data, [], [], [], []⟩]] :
          List (List Message)).map Multiset.ofList).sum ∧
    ∀ l ∈ ([[], []] : List (List Message)), l = [] := by
  have step1 := MergeStep.forward
    (initMergeState
      [[⟨[], "sender1".data, [], "message1".data, [], [], [], []⟩],
       [⟨[], "sender2".data, [], "message2".data, [], [], [], []⟩]])
    0 ⟨[], "sender1".data, [], "message1".data, [], [], [], []⟩ [] rfl rfl
  have step2 := MergeStep.forward
    { sources := [[], [⟨[], "sender2".data, [], "message2".data, [], [], [], []⟩]]
      output := [⟨[], "sender1".data, [], "message1".data, [], [], [], []⟩]
      closed := false }
    1 ⟨[], "sender2".data, [], "message2".data, [], [], [], []⟩ [] rfl rfl
  have step3 := MergeStep.close
    { sources := [[], []]
      output := [⟨[], "sender1".data, [], "message1".data, [], [], [], []⟩,
                 ⟨[], "sender2".data, [], "message2".data, [], [], [], []⟩]
      closed := false }
    (by simp) rfl
  exact c9_merge_channels_fan_in.1
    [[⟨[], "sender1".data, [], "message1".data, [], [], [], []⟩],
     [⟨[], "sender2".data, [], "message2".data, [], [], [], []⟩]]
    { sources := [[], []]
      output := [⟨[], "sender1".data, [], "message1".data, [], [], [], []⟩,
                 ⟨[], "sender2".data, [], "message2".data, [], [], [], []⟩]
      closed := true }
    (Relation.ReflTransGen.head step1
      (Relation.ReflTransGen.head step2 (Relation.ReflTransGen.single step3)))
    rfl
